import Mathlib

/-!
Verification of the music-generation orchestration route of the
musical-painter repository (`src/app/api/generate-music/route.ts`, the
current version of the handler, together with its helper
`extractTextFromGemini` from `src/lib/gemini.ts`).

The TypeScript handler is shallowly embedded as pure Lean functions.
External I/O (the Gemini vision-language service, the Beatoven compose
service and its task-status endpoint) is modelled by an environment
record supplying the response of every call the handler can make, and
each run also returns the ordered trace of external calls it performed.

Modelling conventions:
* JavaScript strings are Lean `String`s; `.length` is the model's
  `String.length` and `.trim`/`.toLowerCase` are `String.trim` /
  `String.toLower` (ASCII whitespace and ASCII case, which is what the
  handler's data uses).
* A possibly-absent JS field is an `Option`; JS truthiness of a string
  field is "present and non-empty" (`strTruthy`).
* JS numbers that the route treats as integers (`totalDuration`,
  durations, stroke counts) are `Int`; `Math.floor(a / b)` on them is
  `Int.fdiv`.
-/

namespace MusicalPainter

/-- JS truthiness of an optional string value: present and non-empty. -/
def strTruthy : Option String → Bool
  | some s => !(s == "")
  | none => false

/-- JS `a || b` where `a` is an optional string and `b` a string:
the left value is used when it is truthy (present and non-empty). -/
def jsOrS (a : Option String) (b : String) : String :=
  match a with
  | some s => if s = "" then b else s
  | none => b

/-- JS `x || y || ...` over a list of optional string reads:
the first truthy (present, non-empty) value, `null` when none is. -/
def firstTruthy : List (Option String) → Option String
  | [] => none
  | o :: rest => if strTruthy o then o else firstTruthy rest

/-- One submitted board, as read from the request body
(`{ id, name?, imageBase64?, strokeCount? }`). -/
structure Board where
  id : String
  name : Option String
  imageBase64 : Option String
  strokeCount : Option Int
  deriving Repr, DecidableEq

/-- Eligibility filter from the route:
`(b.imageBase64 && b.imageBase64.length > 100) || (b.strokeCount || 0) >= 5`.
An empty `imageBase64` string is falsy in JS, but its length is 0 anyway,
so the first disjunct holds exactly when the image is present with
length over 100. -/
def boardEligible (b : Board) : Bool :=
  (match b.imageBase64 with
   | some s => decide (100 < s.length)
   | none => false)
  || decide (5 ≤ b.strokeCount.getD 0)

/-- `durationMap` from the route: `{ 1: 60, 2: 30, 3: 20, 4: 15 }`. -/
def durationMap : Nat → Option Int
  | 1 => some 60
  | 2 => some 30
  | 3 => some 20
  | 4 => some 15
  | _ => none

/-- Per-board segment duration:
`durationMap[num] || Math.max(15, Math.floor(totalDuration / num))`.
All table entries are non-zero, so the JS `||` is a presence test. -/
def perBoardDuration (totalDuration : Int) (num : Nat) : Int :=
  match durationMap num with
  | some d => d
  | none => max 15 (Int.fdiv totalDuration num)

/-- Parsed JSON body of a Gemini response, seen through the fields the
route reads: truthiness of `candidates` and `output`, the two text
extraction paths of `extractTextFromGemini`, and its `JSON.stringify`
rendering used as the extractor's last resort. -/
structure GeminiData where
  candidatesTruthy : Bool
  outputTruthy : Bool
  candText : Option String
  outText : Option String
  stringified : String
  deriving Repr, DecidableEq

/-- `extractTextFromGemini` from `src/lib/gemini.ts`:
`data?.candidates?.[0]?.content?.parts?.[0]?.text || data?.output?.[0]?.content?.text || JSON.stringify(data)`. -/
def extractTextFromGemini (d : GeminiData) : String :=
  jsOrS d.candText (jsOrS d.outText d.stringified)

/-- `extractTextFromGemini` applied to a parsed body that may be JSON
`null` (modelled as `none`); `JSON.stringify(null)` is `"null"`. -/
def extractTextFromGeminiOpt : Option GeminiData → String
  | none => "null"
  | some d => extractTextFromGemini d

/-- Outcome of one `fetch` + `json()` round trip against Gemini:
the fetch or body parse threw, the response was not ok (with the
`text()` body the route reads for its error message), or a parsed JSON
body (`none` modelling a falsy parse result such as JSON `null`). -/
inductive FetchJson where
  | transport (msg : String)
  | httpError (status : Nat) (body : String)
  | ok (data : Option GeminiData)
  deriving Repr, DecidableEq

/-- One entry of `perBoardResults`. The success record of `processBoard`
carries `brief`, `segment_duration` and `strokeCount`; the error record
is `{ id, name, error }` and carries none of them. -/
structure BoardResult where
  id : String
  name : String
  brief : Option String
  segment_duration : Option Int
  strokeCount : Option Int
  error : Option String
  deriving Repr, DecidableEq

/-- `board.name || ⧸board-${index + 1}⧸` — the default display name. -/
def defaultName (b : Board) (i : Nat) : String :=
  jsOrS b.name ("board-" ++ toString (i + 1))

/-- `processBoard` from the fresh path of the route: one Gemini call per
board; a thrown transport error, a non-ok response, an invalid response
structure (`!geminiData || (!geminiData.candidates && !geminiData.output)`)
or an empty extracted text all yield the error record, each with the
error message the corresponding `throw` produces. -/
def processBoard (dur : Int) (b : Board) (i : Nat) (resp : FetchJson) : BoardResult :=
  match resp with
  | .transport m => ⟨b.id, defaultName b i, none, none, none, some m⟩
  | .httpError status body =>
      ⟨b.id, defaultName b i, none, none, none,
        some ("Gemini API error (" ++ toString status ++ "): " ++ body)⟩
  | .ok none =>
      ⟨b.id, defaultName b i, none, none, none,
        some "Invalid Gemini API response structure"⟩
  | .ok (some d) =>
      if !(d.candidatesTruthy || d.outputTruthy) then
        ⟨b.id, defaultName b i, none, none, none,
          some "Invalid Gemini API response structure"⟩
      else
        let t := (extractTextFromGemini d).trim
        if t = "" then
          ⟨b.id, defaultName b i, none, none, none,
            some "Empty response from Gemini API"⟩
        else
          ⟨b.id, defaultName b i, some t, some dur, some (b.strokeCount.getD 0), none⟩

/-- Indexed map of `processBoard` over the boards, starting at index
`i0`; the `k`-th board consumes the `i0+k`-th analysis response. -/
def briefsAux (dur : Int) (vlm : Nat → FetchJson) : Nat → List Board → List BoardResult
  | _, [] => []
  | i, b :: rest => processBoard dur b i (vlm i) :: briefsAux dur vlm (i + 1) rest

/-- `Promise.all(limitedBoards.map((board, index) => processBoard(board, index)))`:
one result per board, in board order, results read back by index. -/
def briefsOf (dur : Int) (vlm : Nat → FetchJson) (boards : List Board) : List BoardResult :=
  briefsAux dur vlm 0 boards

theorem briefsAux_length (dur : Int) (vlm : Nat → FetchJson) :
    ∀ (bs : List Board) (i0 : Nat), (briefsAux dur vlm i0 bs).length = bs.length := by
  intro bs
  induction bs with
  | nil => intro i0; rfl
  | cons b rest ih => intro i0; simp [briefsAux, ih]

theorem briefsAux_get (dur : Int) (vlm : Nat → FetchJson) :
    ∀ (bs : List Board) (i0 k : Nat) (h : k < (briefsAux dur vlm i0 bs).length)
      (h2 : k < bs.length),
      (briefsAux dur vlm i0 bs).get ⟨k, h⟩
        = processBoard dur (bs.get ⟨k, h2⟩) (i0 + k) (vlm (i0 + k)) := by
  intro bs
  induction bs with
  | nil => intro i0 k h h2; exact absurd h2 (by simp)
  | cons b rest ih =>
    intro i0 k h h2
    cases k with
    | zero => simp [briefsAux]
    | succ k =>
      have h' : k < (briefsAux dur vlm (i0 + 1) rest).length := by
        simpa [briefsAux, briefsAux_length] using h
      have h2' : k < rest.length := by simpa using h2
      have harith : i0 + 1 + k = i0 + (k + 1) := by omega
      simp only [briefsAux, List.get_cons_succ]
      rw [ih (i0 + 1) k h' h2', harith]

/-- Segment body text: the route interpolates `r.brief || r.raw`.
A success record always carries a non-empty `brief` (so the brief is
used); the error record has neither `brief` nor `raw`, and JS template
interpolation of `undefined` prints the string "undefined". -/
def segText (r : BoardResult) : String :=
  match r.brief with
  | some b => b
  | none => "undefined"

/-- Segment duration text: `${r.segment_duration}` — "undefined" when
the record is an error record without the field. -/
def segDurText (r : BoardResult) : String :=
  match r.segment_duration with
  | some d => toString d
  | none => "undefined"

/-- Segment display name: `r.name || r.id`. -/
def segName (r : BoardResult) : String :=
  if r.name = "" then r.id else r.name

/-- One line of `combinedSegmentsText`. -/
def segLine (i : Nat) (r : BoardResult) : String :=
  "Segment " ++ toString (i + 1) ++ " (" ++ segName r ++ "): " ++ segText r
    ++ " Duration: " ++ segDurText r ++ "s."

/-- Indexed segment lines, starting at index `i0`. -/
def segLinesAux : Nat → List BoardResult → List String
  | _, [] => []
  | i, r :: rest => segLine i r :: segLinesAux (i + 1) rest

/-- `perBoardResults.map((r, idx) => ...).join('\n\n')`. -/
def combinedSegmentsTextOf (rs : List BoardResult) : String :=
  String.intercalate "\n\n" (segLinesAux 0 rs)

/-- The `sharedHints` template literal of the route, including its
literal leading/trailing newlines and indentation. -/
def sharedHints (td : Int) : String :=
  "\n      Ensure coherence: align tempo, crossfade 1-3s, maintain sonic motifs, avoid abrupt changes. Output ~"
    ++ toString td
    ++ "s background music track of ordered segments suitable for scenes/looping.\n    "

/-- `combinedPrompt`, the deterministic fallback prompt. -/
def combinedPromptOf (td : Int) (num : Nat) (rs : List BoardResult) : String :=
  "Compose a single " ++ toString td ++ "-second track composed of "
    ++ toString num ++ " ordered segments. " ++ sharedHints td ++ "\n\n"
    ++ combinedSegmentsTextOf rs

/-- Lower-cased marker searched by the case-insensitive regex
`/REFINED_PROMPT:\s*([\s\S]*)/i`. -/
def refinedMarker : List Char := "refined_prompt:".data

/-- Index of the first occurrence of `refinedMarker` in a character
list, counting from `i`. -/
def findMarkerAux : List Char → Nat → Option Nat
  | [], _ => none
  | c :: rest, i =>
      if refinedMarker.isPrefixOf (c :: rest) then some i
      else findMarkerAux rest (i + 1)

/-- `refText.match(/REFINED_PROMPT:\s*([\s\S]*)/i)?.[1].trim() || refText`.
The greedy capture is everything after the first (case-insensitive)
occurrence of the marker with leading whitespace skipped; `\s*` followed
by `.trim()` collapses to trimming the whole tail. A missing match makes
the optional chain `undefined`, so the whole text is used; likewise when
the trimmed capture is empty. -/
def extractRefined (s : String) : String :=
  match findMarkerAux (s.data.map Char.toLower) 0 with
  | none => s
  | some i =>
      let t := (String.mk (s.data.drop (i + refinedMarker.length))).trim
      if t = "" then s else t

/-- Result of the refinement call: `refinedPrompt` stays `null` when the
call throws, returns non-ok, has an invalid structure
(`!refinerData || (!refinerData.candidates && !refinerData.output)`), or
yields empty trimmed text; otherwise it is the processed refiner text. -/
def refineOutcome : FetchJson → Option String
  | .transport _ => none
  | .httpError _ _ => none
  | .ok none => none
  | .ok (some d) =>
      if !(d.candidatesTruthy || d.outputTruthy) then none
      else if (extractTextFromGemini d).trim = "" then none
      else some (extractRefined ((extractTextFromGemini d).trim))

/-- The `track` sub-object of a task's metadata, through the fields the
route reads. -/
structure TrackObj where
  downloadUrl : Option String
  url : Option String
  deriving Repr, DecidableEq

/-- Task metadata through the fields of the track-reference extraction. -/
structure MetaObj where
  track_url : Option String
  trackUrl : Option String
  track : Option TrackObj
  deriving Repr, DecidableEq

/-- Parsed body of one task-status response: its `status` and `meta`
fields, and the object itself viewed through the metadata fields
(`selfMeta`), since `stJson?.meta || stJson` falls back to the whole
object. -/
structure StJson where
  status : Option String
  meta : Option MetaObj
  selfMeta : MetaObj
  deriving Repr, DecidableEq

/-- `finalMeta.track_url || finalMeta.trackUrl || finalMeta.track?.downloadUrl || finalMeta.track?.url || null`. -/
def extractTrackUrl (m : MetaObj) : Option String :=
  firstTruthy
    [m.track_url, m.trackUrl, m.track.bind TrackObj.downloadUrl, m.track.bind TrackObj.url]

/-- Outcome of one status poll: the fetch or body parse threw
(swallowed by the loop's `catch`), the response was not ok (body
skipped), or a parsed status body. -/
inductive PollOutcome where
  | transport
  | notOk
  | ok (st : StJson)
  deriving Repr, DecidableEq

/-- Terminal classification of one poll outcome: an ok response whose
status is composed, failed or error. -/
def terminalPoll : PollOutcome → Bool
  | .ok st =>
      decide (st.status = some "composed") || decide (st.status = some "failed")
        || decide (st.status = some "error")
  | _ => false

/-- Result of the poll loop, with the number of status queries consumed
on a terminal status. -/
inductive PollFinal where
  | composedMeta (m : MetaObj) (polled : Nat)
  | failedSt (st : StJson) (polled : Nat)
  | timedOut
  deriving Repr, DecidableEq

/-- One external interaction of a run. -/
inductive Event where
  | vlmCall (i : Nat)
  | refineCall
  | adjustCall
  | composeCall (promptText : String)
  | pollCall (k : Nat)
  | sleep (ms : Nat)
  deriving Repr, DecidableEq

/-- The body of `while (attempts++ < 90)`, by remaining fuel: poll the
task, break with the metadata (`stJson?.meta || stJson`) on composed,
return the failure with the raw payload on failed/error, otherwise sleep
2000 ms and try again; transport errors and non-ok responses are
swallowed and also just sleep. -/
def pollAux (polls : Nat → PollOutcome) : Nat → Nat → PollFinal × List Event
  | _, 0 => (.timedOut, [])
  | k, fuel + 1 =>
      match polls k with
      | .ok st =>
          if st.status = some "composed" then
            (.composedMeta (st.meta.getD st.selfMeta) (k + 1), [Event.pollCall k])
          else if st.status = some "failed" ∨ st.status = some "error" then
            (.failedSt st (k + 1), [Event.pollCall k])
          else
            let r := pollAux polls (k + 1) fuel
            (r.1, Event.pollCall k :: Event.sleep 2000 :: r.2)
      | _ =>
          let r := pollAux polls (k + 1) fuel
          (r.1, Event.pollCall k :: Event.sleep 2000 :: r.2)

/-- The route's poll loop: at most 90 attempts starting at attempt 0. -/
def pollLoop (polls : Nat → PollOutcome) : PollFinal × List Event :=
  pollAux polls 0 90

/-- Outcome of the compose submission: the fetch or body parse threw
(propagating to the route's outer catch), or a parsed body whose
`task_id` may be absent. -/
inductive ComposeResp where
  | ctransport (msg : String)
  | cok (task_id : Option String)
  deriving Repr, DecidableEq

/-- The request body, through the fields the route reads.
`totalDuration` is `none` when absent or not a number (default 60). -/
structure Request where
  boards : List Board
  totalDuration : Option Int
  retryMode : Bool
  adjustMode : Bool
  beatovenPrompt : Option String
  adjustInstructions : Option String

/-- All external inputs of one run: the two API keys ("" models an
unset environment variable), the per-board analysis responses, the
refiner response, the adjust-call response, the compose submission
response and the status-poll responses. -/
structure Env where
  geminiKey : String
  beatovenKey : String
  vlm : Nat → FetchJson
  refiner : FetchJson
  adjuster : FetchJson
  compose : ComposeResp
  polls : Nat → PollOutcome

/-- The route's return sites, one constructor per `return` statement
(plus the outer catch). -/
inductive Response where
  | apiKeysNotSet
  | noBoardsProvided
  | noValidBoards
  | noTaskId (results : Option (List BoardResult))
  | compositionFailed (results : Option (List BoardResult)) (st : StJson)
  | composeTimedOut (results : Option (List BoardResult)) (taskId : String)
  | adjustmentFailed (errorText : String)
  | emptyAdjustedPrompt
  | retrySuccess (beatovenPrompt : String) (taskId : String) (trackUrl : Option String) (meta : MetaObj)
  | adjustSuccess (beatovenPrompt : String) (taskId : String) (trackUrl : Option String) (meta : MetaObj)
  | freshSuccess (results : List BoardResult) (combinedPrompt : String) (beatovenPrompt : String)
      (taskId : String) (trackUrl : Option String) (meta : MetaObj)
  | caughtError (msg : String)
  deriving Repr, DecidableEq

/-- HTTP status of each return site: 400 for the two validation errors,
200 for the success payloads, 500 for everything else. -/
def httpStatus : Response → Nat
  | .noBoardsProvided => 400
  | .noValidBoards => 400
  | .retrySuccess _ _ _ _ => 200
  | .adjustSuccess _ _ _ _ => 200
  | .freshSuccess _ _ _ _ _ _ => 200
  | _ => 500

/-- Compose submission followed by the poll loop, shared by the three
modes; `mk` builds the mode's success response and `results` is the
`perBoardResults` diagnostic attached by the fresh path's error
returns. -/
def composePhase (env : Env) (results : Option (List BoardResult)) (promptText : String)
    (mk : String → Option String → MetaObj → Response) : Response × List Event :=
  match env.compose with
  | .ctransport m => (.caughtError m, [Event.composeCall promptText])
  | .cok none => (.noTaskId results, [Event.composeCall promptText])
  | .cok (some tid) =>
      match pollLoop env.polls with
      | (.composedMeta m _, t) =>
          (mk tid (extractTrackUrl m) m, Event.composeCall promptText :: t)
      | (.failedSt st _, t) =>
          (.compositionFailed results st, Event.composeCall promptText :: t)
      | (.timedOut, t) =>
          (.composeTimedOut results tid, Event.composeCall promptText :: t)

/-- The retry branch: submit the stored prompt unchanged and poll. -/
def retryRun (p : String) (env : Env) : Response × List Event :=
  composePhase env none p (fun tid url m => .retrySuccess p tid url m)

/-- The adjust branch: one Gemini call revising the stored prompt
(the revision instruction text itself is opaque to the claims), then
compose and poll with the revised prompt. A non-ok revision response
returns `Adjustment failed: ...`; an empty trimmed revision returns the
failed-to-generate error; a JSON-null body stringifies to "null" and is
treated as a usable prompt. -/
def adjustRun (env : Env) : Response × List Event :=
  match env.adjuster with
  | .transport m => (.caughtError m, [Event.adjustCall])
  | .httpError _ body => (.adjustmentFailed ("Adjustment failed: " ++ body), [Event.adjustCall])
  | .ok d =>
      let adjusted := (extractTextFromGeminiOpt d).trim
      if adjusted = "" then (.emptyAdjustedPrompt, [Event.adjustCall])
      else
        let r := composePhase env none adjusted (fun tid url m => .adjustSuccess adjusted tid url m)
        (r.1, Event.adjustCall :: r.2)

/-- Trace of the fan-out analysis calls for `n` boards. -/
def vlmEvents (n : Nat) : List Event :=
  (List.range n).map Event.vlmCall

/-- The fresh-generation branch: board validation, eligibility filter,
cap to 4, per-board briefs, combined fallback prompt, optional
refinement, compose and poll. -/
def freshRun (req : Request) (env : Env) : Response × List Event :=
  if req.boards.isEmpty then (.noBoardsProvided, [])
  else
    let valid := req.boards.filter boardEligible
    if valid.isEmpty then (.noValidBoards, [])
    else
      let limited := valid.take 4
      let num := limited.length
      let td := req.totalDuration.getD 60
      let dur := perBoardDuration td num
      let results := briefsOf dur env.vlm limited
      let cp := combinedPromptOf td num results
      let toSend := jsOrS (refineOutcome env.refiner) cp
      let r := composePhase env (some results) toSend
        (fun tid url m => .freshSuccess results cp toSend tid url m)
      (r.1, vlmEvents num ++ Event.refineCall :: r.2)

/-- The POST handler: key check, then the retry guard
(`retryMode && beatovenPrompt`), then the adjust guard
(`adjustMode && beatovenPrompt && adjustInstructions`), then the fresh
path. -/
def POSTembed (req : Request) (env : Env) : Response × List Event :=
  if env.geminiKey = "" ∨ env.beatovenKey = "" then (.apiKeysNotSet, [])
  else if req.retryMode && strTruthy req.beatovenPrompt then
    retryRun (req.beatovenPrompt.getD "") env
  else if req.adjustMode && strTruthy req.beatovenPrompt && strTruthy req.adjustInstructions then
    adjustRun env
  else
    freshRun req env

/-- Prompt texts submitted to the compose service, in order. -/
def submittedPrompts (t : List Event) : List String :=
  t.filterMap (fun e => match e with | .composeCall p => some p | _ => none)

/-- Number of task-status queries in a trace. -/
def polledCount (t : List Event) : Nat :=
  t.countP (fun e => match e with | .pollCall _ => true | _ => false)

/-- Events of the analysis stages: per-board vision-language calls, the
refinement call and the adjust call. -/
def isAnalysisCall : Event → Bool
  | .vlmCall _ => true
  | .refineCall => true
  | .adjustCall => true
  | _ => false

/-- Error-taxonomy classification of the return sites, following the
spec's taxonomy; it includes a cancelled kind that no return site maps
to. -/
inductive OutcomeKind where
  | configError
  | validationError
  | submissionError
  | compositionFailure
  | timeout
  | adjustFailure
  | genericError
  | success
  | cancelled
  deriving Repr, DecidableEq

/-- Which taxonomy kind each return site belongs to. -/
def outcomeKindOf : Response → OutcomeKind
  | .apiKeysNotSet => .configError
  | .noBoardsProvided => .validationError
  | .noValidBoards => .validationError
  | .noTaskId _ => .submissionError
  | .compositionFailed _ _ => .compositionFailure
  | .composeTimedOut _ _ => .timeout
  | .adjustmentFailed _ => .adjustFailure
  | .emptyAdjustedPrompt => .adjustFailure
  | .retrySuccess _ _ _ _ => .success
  | .adjustSuccess _ _ _ _ => .success
  | .freshSuccess _ _ _ _ _ _ => .success
  | .caughtError _ => .genericError

theorem pollAux_polledCount_le (polls : Nat → PollOutcome) :
    ∀ (fuel k : Nat), polledCount (pollAux polls k fuel).2 ≤ fuel := by
  intro fuel
  induction fuel with
  | zero => intro k; simp [pollAux, polledCount]
  | succ fuel ih =>
    intro k
    cases h : polls k with
    | ok st =>
      by_cases hc : st.status = some "composed"
      · simp [pollAux, h, hc, polledCount]
      · by_cases hf : st.status = some "failed" ∨ st.status = some "error"
        · simp [pollAux, h, hc, hf, polledCount]
        · have := ih (k + 1)
          simp only [polledCount] at this
          simp [pollAux, h, hc, hf, polledCount, List.countP_cons]
          omega
    | transport =>
      have := ih (k + 1)
      simp only [polledCount] at this
      simp [pollAux, h, polledCount, List.countP_cons]
      omega
    | notOk =>
      have := ih (k + 1)
      simp only [polledCount] at this
      simp [pollAux, h, polledCount, List.countP_cons]
      omega

theorem pollAux_sleep_ms (polls : Nat → PollOutcome) :
    ∀ (fuel k ms : Nat), Event.sleep ms ∈ (pollAux polls k fuel).2 → ms = 2000 := by
  intro fuel
  induction fuel with
  | zero => intro k ms hm; simp [pollAux] at hm
  | succ fuel ih =>
    intro k ms hm
    cases h : polls k with
    | ok st =>
      by_cases hc : st.status = some "composed"
      · simp [pollAux, h, hc] at hm
      · by_cases hf : st.status = some "failed" ∨ st.status = some "error"
        · simp [pollAux, h, hc, hf] at hm
        · simp only [pollAux, h, if_neg hc, if_neg hf, List.mem_cons] at hm
          rcases hm with h1 | h1 | h1
          · exact absurd h1 (by simp)
          · exact (Event.sleep.injEq ..).mp h1.symm |>.symm ▸ rfl
          · exact ih (k + 1) ms h1
    | transport =>
      simp only [pollAux, h, List.mem_cons] at hm
      rcases hm with h1 | h1 | h1
      · exact absurd h1 (by simp)
      · exact (Event.sleep.injEq ..).mp h1.symm |>.symm ▸ rfl
      · exact ih (k + 1) ms h1
    | notOk =>
      simp only [pollAux, h, List.mem_cons] at hm
      rcases hm with h1 | h1 | h1
      · exact absurd h1 (by simp)
      · exact (Event.sleep.injEq ..).mp h1.symm |>.symm ▸ rfl
      · exact ih (k + 1) ms h1

theorem pollAux_submitted (polls : Nat → PollOutcome) :
    ∀ (fuel k : Nat), submittedPrompts (pollAux polls k fuel).2 = [] := by
  intro fuel
  induction fuel with
  | zero => intro k; simp [pollAux, submittedPrompts]
  | succ fuel ih =>
    intro k
    cases h : polls k with
    | ok st =>
      by_cases hc : st.status = some "composed"
      · simp [pollAux, h, hc, submittedPrompts]
      · by_cases hf : st.status = some "failed" ∨ st.status = some "error"
        · simp [pollAux, h, hc, hf, submittedPrompts]
        · simp only [pollAux, h, if_neg hc, if_neg hf, submittedPrompts, List.filterMap_cons]
          simpa [submittedPrompts] using ih (k + 1)
    | transport =>
      simp only [pollAux, h, submittedPrompts, List.filterMap_cons]
      simpa [submittedPrompts] using ih (k + 1)
    | notOk =>
      simp only [pollAux, h, submittedPrompts, List.filterMap_cons]
      simpa [submittedPrompts] using ih (k + 1)

theorem pollAux_no_analysis (polls : Nat → PollOutcome) :
    ∀ (fuel k : Nat) (e : Event), e ∈ (pollAux polls k fuel).2 → isAnalysisCall e = false := by
  intro fuel
  induction fuel with
  | zero => intro k e he; simp [pollAux] at he
  | succ fuel ih =>
    intro k e he
    cases h : polls k with
    | ok st =>
      by_cases hc : st.status = some "composed"
      · simp [pollAux, h, hc] at he
        subst he; rfl
      · by_cases hf : st.status = some "failed" ∨ st.status = some "error"
        · simp [pollAux, h, hc, hf] at he
          subst he; rfl
        · simp only [pollAux, h, if_neg hc, if_neg hf, List.mem_cons] at he
          rcases he with h1 | h1 | h1
          · subst h1; rfl
          · subst h1; rfl
          · exact ih (k + 1) e h1
    | transport =>
      simp only [pollAux, h, List.mem_cons] at he
      rcases he with h1 | h1 | h1
      · subst h1; rfl
      · subst h1; rfl
      · exact ih (k + 1) e h1
    | notOk =>
      simp only [pollAux, h, List.mem_cons] at he
      rcases he with h1 | h1 | h1
      · subst h1; rfl
      · subst h1; rfl
      · exact ih (k + 1) e h1

theorem pollAux_step_nonterminal (polls : Nat → PollOutcome) (k fuel : Nat)
    (h : terminalPoll (polls k) = false) :
    pollAux polls k (fuel + 1)
      = ((pollAux polls (k + 1) fuel).1,
         Event.pollCall k :: Event.sleep 2000 :: (pollAux polls (k + 1) fuel).2) := by
  cases hp : polls k with
  | ok st =>
    rw [hp] at h
    simp only [terminalPoll, Bool.or_eq_false_iff, decide_eq_false_iff_not] at h
    obtain ⟨⟨hc, hf⟩, he⟩ := h
    simp [pollAux, hp, hc, hf, he]
  | transport => simp [pollAux, hp]
  | notOk => simp [pollAux, hp]

theorem pollAux_composed_step (polls : Nat → PollOutcome) (k fuel : Nat) (st : StJson)
    (hp : polls k = .ok st) (hc : st.status = some "composed") :
    pollAux polls k (fuel + 1)
      = (.composedMeta (st.meta.getD st.selfMeta) (k + 1), [Event.pollCall k]) := by
  simp [pollAux, hp, hc]

theorem pollAux_failed_step (polls : Nat → PollOutcome) (k fuel : Nat) (st : StJson)
    (hp : polls k = .ok st) (hc : ¬ st.status = some "composed")
    (hf : st.status = some "failed" ∨ st.status = some "error") :
    pollAux polls k (fuel + 1) = (.failedSt st (k + 1), [Event.pollCall k]) := by
  simp [pollAux, hp, hc, hf]

theorem pollAux_all_nonterminal (polls : Nat → PollOutcome) :
    ∀ (fuel k : Nat), (∀ j, j < fuel → terminalPoll (polls (k + j)) = false) →
      (pollAux polls k fuel).1 = .timedOut
        ∧ polledCount (pollAux polls k fuel).2 = fuel := by
  intro fuel
  induction fuel with
  | zero => intro k _; exact ⟨rfl, rfl⟩
  | succ fuel ih =>
    intro k hall
    have h0 : terminalPoll (polls k) = false := by simpa using hall 0 (by omega)
    have hrest : ∀ j, j < fuel → terminalPoll (polls (k + 1 + j)) = false := by
      intro j hj
      have := hall (j + 1) (by omega)
      simpa [Nat.add_comm, Nat.add_left_comm] using this
    obtain ⟨h1, h2⟩ := ih (k + 1) hrest
    rw [pollAux_step_nonterminal polls k fuel h0]
    constructor
    · exact h1
    · simp [polledCount, List.countP_cons]
      simpa [polledCount] using h2

theorem pollAux_fst_reach (polls : Nat → PollOutcome) :
    ∀ (d fuel k : Nat), d ≤ fuel →
      (∀ j, j < d → terminalPoll (polls (k + j)) = false) →
      (pollAux polls k fuel).1 = (pollAux polls (k + d) (fuel - d)).1 := by
  intro d
  induction d with
  | zero => intro fuel k _ _; rfl
  | succ d ih =>
    intro fuel k hd hall
    have h0 : terminalPoll (polls k) = false := by simpa using hall 0 (by omega)
    cases fuel with
    | zero => omega
    | succ fuel =>
      rw [pollAux_step_nonterminal polls k fuel h0]
      have hrest : ∀ j, j < d → terminalPoll (polls (k + 1 + j)) = false := by
        intro j hj
        have := hall (j + 1) (by omega)
        simpa [Nat.add_comm, Nat.add_left_comm] using this
      have e1 : k + 1 + d = k + (d + 1) := by omega
      have e2 : fuel - d = fuel + 1 - (d + 1) := by omega
      rw [ih fuel (k + 1) (by omega) hrest, e1, e2]

theorem pollLoop_submitted (polls : Nat → PollOutcome) :
    submittedPrompts (pollLoop polls).2 = [] :=
  pollAux_submitted polls 90 0

theorem pollLoop_polled_le (polls : Nat → PollOutcome) :
    polledCount (pollLoop polls).2 ≤ 90 :=
  pollAux_polledCount_le polls 90 0

theorem pollLoop_no_analysis (polls : Nat → PollOutcome) :
    ∀ e ∈ (pollLoop polls).2, isAnalysisCall e = false :=
  fun e he => pollAux_no_analysis polls 90 0 e he

theorem composePhase_submitted (env : Env) (results : Option (List BoardResult))
    (p : String) (mk : String → Option String → MetaObj → Response) :
    submittedPrompts (composePhase env results p mk).2 = [p] := by
  cases hc : env.compose with
  | ctransport m => simp [composePhase, hc, submittedPrompts]
  | cok tid =>
    cases tid with
    | none => simp [composePhase, hc, submittedPrompts]
    | some t =>
      rcases hp : pollLoop env.polls with ⟨fin, tr⟩
      have htr : submittedPrompts tr = [] := by
        have := pollLoop_submitted env.polls
        rw [hp] at this
        exact this
      cases fin with
      | composedMeta m n =>
        simp only [composePhase, hc, hp, submittedPrompts, List.filterMap_cons]
        simpa [submittedPrompts] using htr
      | failedSt st n =>
        simp only [composePhase, hc, hp, submittedPrompts, List.filterMap_cons]
        simpa [submittedPrompts] using htr
      | timedOut =>
        simp only [composePhase, hc, hp, submittedPrompts, List.filterMap_cons]
        simpa [submittedPrompts] using htr

theorem composePhase_polled_le (env : Env) (results : Option (List BoardResult))
    (p : String) (mk : String → Option String → MetaObj → Response) :
    polledCount (composePhase env results p mk).2 ≤ 90 := by
  cases hc : env.compose with
  | ctransport m => simp [composePhase, hc, polledCount]
  | cok tid =>
    cases tid with
    | none => simp [composePhase, hc, polledCount]
    | some t =>
      rcases hp : pollLoop env.polls with ⟨fin, tr⟩
      have htr : polledCount tr ≤ 90 := by
        have := pollLoop_polled_le env.polls
        rw [hp] at this
        exact this
      simp only [polledCount] at htr
      cases fin with
      | composedMeta m n =>
        simp [composePhase, hc, hp, polledCount, List.countP_cons]
        omega
      | failedSt st n =>
        simp [composePhase, hc, hp, polledCount, List.countP_cons]
        omega
      | timedOut =>
        simp [composePhase, hc, hp, polledCount, List.countP_cons]
        omega

theorem composePhase_no_analysis (env : Env) (results : Option (List BoardResult))
    (p : String) (mk : String → Option String → MetaObj → Response) :
    ∀ e ∈ (composePhase env results p mk).2, isAnalysisCall e = false := by
  intro e he
  cases hc : env.compose with
  | ctransport m =>
    simp [composePhase, hc] at he
    subst he; rfl
  | cok tid =>
    cases tid with
    | none =>
      simp [composePhase, hc] at he
      subst he; rfl
    | some t =>
      rcases hp : pollLoop env.polls with ⟨fin, tr⟩
      have htr : ∀ x ∈ tr, isAnalysisCall x = false := by
        intro x hx
        apply pollLoop_no_analysis env.polls
        rw [hp]
        exact hx
      cases fin with
      | composedMeta m n =>
        simp only [composePhase, hc, hp, List.mem_cons] at he
        rcases he with h1 | h1
        · subst h1; rfl
        · exact htr e h1
      | failedSt st n =>
        simp only [composePhase, hc, hp, List.mem_cons] at he
        rcases he with h1 | h1
        · subst h1; rfl
        · exact htr e h1
      | timedOut =>
        simp only [composePhase, hc, hp, List.mem_cons] at he
        rcases he with h1 | h1
        · subst h1; rfl
        · exact htr e h1

theorem composePhase_timedOut (env : Env) (results : Option (List BoardResult))
    (p : String) (mk : String → Option String → MetaObj → Response) (tid : String)
    (hc : env.compose = .cok (some tid)) (hp : (pollLoop env.polls).1 = .timedOut) :
    (composePhase env results p mk).1 = .composeTimedOut results tid := by
  rcases hq : pollLoop env.polls with ⟨fin, tr⟩
  rw [hq] at hp
  simp only at hp
  subst hp
  simp [composePhase, hc, hq]

theorem composePhase_failed (env : Env) (results : Option (List BoardResult))
    (p : String) (mk : String → Option String → MetaObj → Response) (tid : String)
    (st : StJson) (n : Nat)
    (hc : env.compose = .cok (some tid)) (hp : (pollLoop env.polls).1 = .failedSt st n) :
    (composePhase env results p mk).1 = .compositionFailed results st := by
  rcases hq : pollLoop env.polls with ⟨fin, tr⟩
  rw [hq] at hp
  simp only at hp
  subst hp
  simp [composePhase, hc, hq]

theorem vlmEvents_submitted (n : Nat) : submittedPrompts (vlmEvents n) = [] := by
  simp [vlmEvents, submittedPrompts, List.filterMap_map]

theorem vlmEvents_polled (n : Nat) : polledCount (vlmEvents n) = 0 := by
  simp [vlmEvents, polledCount]

theorem POSTembed_fresh (req : Request) (env : Env)
    (hg : ¬ env.geminiKey = "") (hb : ¬ env.beatovenKey = "")
    (hr : (req.retryMode && strTruthy req.beatovenPrompt) = false)
    (ha : (req.adjustMode && strTruthy req.beatovenPrompt && strTruthy req.adjustInstructions) = false) :
    POSTembed req env = freshRun req env := by
  simp [POSTembed, hg, hb, hr, ha]

theorem POSTembed_retry (req : Request) (env : Env) (p : String)
    (hg : ¬ env.geminiKey = "") (hb : ¬ env.beatovenKey = "")
    (hm : req.retryMode = true) (hp : req.beatovenPrompt = some p) (hne : p ≠ "") :
    POSTembed req env = retryRun p env := by
  have hcond : (req.retryMode && strTruthy req.beatovenPrompt) = true := by
    simp [hm, strTruthy, hp, hne]
  simp only [POSTembed]
  rw [if_neg (by simp [hg, hb]), if_pos hcond, hp]
  rfl

theorem polledCount_append (a b : List Event) :
    polledCount (a ++ b) = polledCount a + polledCount b := by
  simp [polledCount, List.countP_append]

theorem retryRun_polled_le (p : String) (env : Env) :
    polledCount (retryRun p env).2 ≤ 90 := by
  simp only [retryRun]
  exact composePhase_polled_le ..

theorem adjustRun_polled_le (env : Env) :
    polledCount (adjustRun env).2 ≤ 90 := by
  cases ha : env.adjuster with
  | transport m => simp [adjustRun, ha, polledCount]
  | httpError st body => simp [adjustRun, ha, polledCount]
  | ok d =>
    by_cases he : (extractTextFromGeminiOpt d).trim = ""
    · simp [adjustRun, ha, he, polledCount]
    · have := composePhase_polled_le env none ((extractTextFromGeminiOpt d).trim)
        (fun tid url m => .adjustSuccess ((extractTextFromGeminiOpt d).trim) tid url m)
      simp only [polledCount] at this
      simp [adjustRun, ha, he, polledCount, List.countP_cons]
      omega

theorem polled_le_of_analysis_events (n : Nat) (t : List Event)
    (h : polledCount t ≤ 90) :
    polledCount (vlmEvents n ++ Event.refineCall :: t) ≤ 90 := by
  have hv := vlmEvents_polled n
  rw [polledCount_append, hv]
  simp only [polledCount] at h ⊢
  simp [List.countP_cons]
  omega

theorem freshRun_polled_le (req : Request) (env : Env) :
    polledCount (freshRun req env).2 ≤ 90 := by
  by_cases h1 : req.boards.isEmpty
  · simp [freshRun, h1, polledCount]
  · by_cases h2 : (req.boards.filter boardEligible).isEmpty
    · simp [freshRun, h1, h2, polledCount]
    · simp only [freshRun, if_neg h1, if_neg h2]
      exact polled_le_of_analysis_events _ _ (composePhase_polled_le _ _ _ _)

/-- C2: every run queries the task status at most 90 times, each poll
interval is the fixed 2000 ms; when the first terminal status among the
first 90 polls is composed the loop ends in success with that poll's
metadata, and when it is failed or error the loop ends in the
composition-failure result carrying the raw status payload; a transport
error or non-ok response is swallowed, consuming exactly one attempt
without terminating; if no poll among the 90 is terminal the loop times
out after exactly 90 queries, and the route then returns the timed-out
response, which is a different response than the composition-failure
one. -/
theorem c2_poll_protocol :
    (∀ (req : Request) (env : Env), polledCount (POSTembed req env).2 ≤ 90)
    ∧ (∀ (polls : Nat → PollOutcome) (ms : Nat),
        Event.sleep ms ∈ (pollLoop polls).2 → ms = 2000)
    ∧ (∀ (polls : Nat → PollOutcome) (k : Nat) (st : StJson),
        k < 90 → (∀ j, j < k → terminalPoll (polls j) = false) → polls k = .ok st →
        (st.status = some "composed" →
          (pollLoop polls).1 = .composedMeta (st.meta.getD st.selfMeta) (k + 1))
        ∧ (¬ st.status = some "composed" →
            (st.status = some "failed" ∨ st.status = some "error") →
            (pollLoop polls).1 = .failedSt st (k + 1)))
    ∧ (∀ (polls : Nat → PollOutcome) (k fuel : Nat),
        terminalPoll (polls k) = false →
        (pollAux polls k (fuel + 1)).1 = (pollAux polls (k + 1) fuel).1
        ∧ polledCount (pollAux polls k (fuel + 1)).2
            = polledCount (pollAux polls (k + 1) fuel).2 + 1)
    ∧ (∀ (polls : Nat → PollOutcome),
        (∀ k, k < 90 → terminalPoll (polls k) = false) →
        (pollLoop polls).1 = .timedOut ∧ polledCount (pollLoop polls).2 = 90)
    ∧ (∀ (env : Env) (results : Option (List BoardResult)) (p : String)
        (mk : String → Option String → MetaObj → Response) (tid : String),
        env.compose = .cok (some tid) →
        ((pollLoop env.polls).1 = .timedOut →
          (composePhase env results p mk).1 = .composeTimedOut results tid)
        ∧ (∀ st n, (pollLoop env.polls).1 = .failedSt st n →
            (composePhase env results p mk).1 = .compositionFailed results st))
    ∧ (∀ (r1 r2 : Option (List BoardResult)) (st : StJson) (tid : String),
        Response.compositionFailed r1 st ≠ Response.composeTimedOut r2 tid) := by
  refine ⟨?_, ?_, ?_, ?_, ?_, ?_, ?_⟩
  · intro req env
    by_cases hk : env.geminiKey = "" ∨ env.beatovenKey = ""
    · simp [POSTembed, hk, polledCount]
    · rw [POSTembed, if_neg hk]
      by_cases hr : (req.retryMode && strTruthy req.beatovenPrompt) = true
      · rw [if_pos hr]
        exact retryRun_polled_le _ env
      · rw [if_neg hr]
        by_cases ha : (req.adjustMode && strTruthy req.beatovenPrompt
            && strTruthy req.adjustInstructions) = true
        · rw [if_pos ha]
          exact adjustRun_polled_le env
        · rw [if_neg ha]
          exact freshRun_polled_le req env
  · intro polls ms hm
    exact pollAux_sleep_ms polls 90 0 ms hm
  · intro polls k st hk hall hok
    constructor
    · intro hc
      have hreach := pollAux_fst_reach polls k 90 0 (by omega)
        (fun j hj => by simpa using hall j hj)
      obtain ⟨fuel, hfuel⟩ : ∃ fuel, 90 - k = fuel + 1 := ⟨90 - k - 1, by omega⟩
      have hstep := pollAux_composed_step polls k fuel st hok hc
      rw [pollLoop, hreach]
      simp only [Nat.zero_add, hfuel, hstep]
    · intro hc hf
      have hreach := pollAux_fst_reach polls k 90 0 (by omega)
        (fun j hj => by simpa using hall j hj)
      obtain ⟨fuel, hfuel⟩ : ∃ fuel, 90 - k = fuel + 1 := ⟨90 - k - 1, by omega⟩
      have hstep := pollAux_failed_step polls k fuel st hok hc hf
      rw [pollLoop, hreach]
      simp only [Nat.zero_add, hfuel, hstep]
  · intro polls k fuel hnt
    rw [pollAux_step_nonterminal polls k fuel hnt]
    refine ⟨rfl, ?_⟩
    simp [polledCount, List.countP_cons]
  · intro polls hall
    have := pollAux_all_nonterminal polls 90 0 (fun j hj => by simpa using hall j hj)
    exact this
  · intro env results p mk tid hc
    refine ⟨?_, ?_⟩
    · intro hp
      exact composePhase_timedOut env results p mk tid hc hp
    · intro st n hp
      exact composePhase_failed env results p mk tid st n hc hp
  · intro r1 r2 st tid h
    exact Response.noConfusion h

/-- Witness for C2: a concrete polls function whose first status is
composed terminates the loop successfully after exactly one query. -/
theorem c2_poll_protocol_witness :
    (pollLoop (fun _ => PollOutcome.ok ⟨some "composed", none, ⟨none, none, none⟩⟩)).1
      = PollFinal.composedMeta ⟨none, none, none⟩ 1 :=
  (c2_poll_protocol.2.2.1 (fun _ => PollOutcome.ok ⟨some "composed", none, ⟨none, none, none⟩⟩)
      0 ⟨some "composed", none, ⟨none, none, none⟩⟩ (by omega)
      (fun j hj => absurd hj (Nat.not_lt_zero j)) rfl).1 rfl

theorem boardEligible_iff (b : Board) :
    boardEligible b = true
      ↔ (∃ s, b.imageBase64 = some s ∧ 100 < s.length)
        ∨ (∃ n, b.strokeCount = some n ∧ 5 ≤ n) := by
  cases hi : b.imageBase64 with
  | none =>
    cases hs : b.strokeCount with
    | none => simp [boardEligible, hi, hs]
    | some n => simp [boardEligible, hi, hs]
  | some s =>
    cases hs : b.strokeCount with
    | none => simp [boardEligible, hi, hs]
    | some n => simp [boardEligible, hi, hs]

/-- C3: a board passes the eligibility filter exactly when it has an
image payload longer than 100 characters or a stroke count of at least
5; and a fresh-mode request whose boards all fail the test returns the
400 validation response with an empty trace: no vision-language or
compose call is made. -/
theorem c3_eligibility_filter :
    (∀ (bs : List Board) (b : Board),
        b ∈ bs.filter boardEligible
          ↔ b ∈ bs ∧ ((∃ s, b.imageBase64 = some s ∧ 100 < s.length)
              ∨ (∃ n, b.strokeCount = some n ∧ 5 ≤ n)))
    ∧ (∀ (req : Request) (env : Env),
        ¬ env.geminiKey = "" → ¬ env.beatovenKey = "" →
        (req.retryMode && strTruthy req.beatovenPrompt) = false →
        (req.adjustMode && strTruthy req.beatovenPrompt
          && strTruthy req.adjustInstructions) = false →
        req.boards ≠ [] →
        (∀ b ∈ req.boards,
          ¬ ((∃ s, b.imageBase64 = some s ∧ 100 < s.length)
              ∨ (∃ n, b.strokeCount = some n ∧ 5 ≤ n))) →
        POSTembed req env = (Response.noValidBoards, [])
          ∧ httpStatus Response.noValidBoards = 400) := by
  constructor
  · intro bs b
    rw [List.mem_filter, boardEligible_iff]
  · intro req env hg hb hr ha hne hfail
    have hfilter : req.boards.filter boardEligible = [] := by
      rw [List.filter_eq_nil_iff]
      intro b hbmem hel
      exact hfail b hbmem ((boardEligible_iff b).mp hel)
    have h1 : req.boards.isEmpty = false := by
      cases hbs : req.boards with
      | nil => exact absurd hbs hne
      | cons x xs => rfl
    rw [POSTembed_fresh req env hg hb hr ha]
    refine ⟨?_, rfl⟩
    simp [freshRun, h1, hfilter]

/-- Witness for C3: one board with neither image nor enough strokes is
rejected with the validation response and no external call. -/
theorem c3_eligibility_filter_witness :
    POSTembed ⟨[⟨"b1", none, none, some 2⟩], none, false, false, none, none⟩
        ⟨"g", "b", fun _ => FetchJson.ok none, FetchJson.ok none, FetchJson.ok none,
          ComposeResp.cok none, fun _ => PollOutcome.transport⟩
      = (Response.noValidBoards, []) :=
  (c3_eligibility_filter.2 _ _ (by decide) (by decide) (by decide) (by decide)
      (by decide)
      (by
        intro b hbmem
        have hb1 : b = (⟨"b1", none, none, some 2⟩ : Board) := by
          simpa using hbmem
        subst hb1
        rintro (⟨s, hs, h100⟩ | ⟨n, hn, h5⟩)
        · exact Option.noConfusion hs
        · injection hn with hn2
          omega)).1

theorem extractRefined_ne_empty (s : String) (h : s ≠ "") : extractRefined s ≠ "" := by
  unfold extractRefined
  cases hf : findMarkerAux (s.data.map Char.toLower) 0 with
  | none => exact h
  | some i =>
    by_cases ht : (String.mk (s.data.drop (i + refinedMarker.length))).trim = ""
    · simpa [ht] using h
    · simp [ht]

theorem refineOutcome_ne_empty (f : FetchJson) (r : String)
    (h : refineOutcome f = some r) : r ≠ "" := by
  cases f with
  | transport m => simp [refineOutcome] at h
  | httpError a b => simp [refineOutcome] at h
  | ok d =>
    cases d with
    | none => simp [refineOutcome] at h
    | some g =>
      simp only [refineOutcome] at h
      by_cases hc2 : (!(g.candidatesTruthy || g.outputTruthy)) = true
      · rw [if_pos hc2] at h
        exact Option.noConfusion h
      · rw [if_neg hc2] at h
        by_cases he : (extractTextFromGemini g).trim = ""
        · rw [if_pos he] at h
          exact Option.noConfusion h
        · rw [if_neg he] at h
          injection h with h2
          rw [← h2]
          exact extractRefined_ne_empty _ he

theorem submitted_analysis_events (n : Nat) (t : List Event) :
    submittedPrompts (vlmEvents n ++ Event.refineCall :: t) = submittedPrompts t := by
  simp [submittedPrompts, List.filterMap_append, List.filterMap_cons, vlmEvents,
    List.filterMap_map]

theorem jsOrS_some_of_ne (r b : String) (h : r ≠ "") : jsOrS (some r) b = r := by
  simp [jsOrS, h]

theorem freshRun_submitted (req : Request) (env : Env)
    (h1 : req.boards.isEmpty = false)
    (h2 : (req.boards.filter boardEligible).isEmpty = false) :
    submittedPrompts (freshRun req env).2
      = [jsOrS (refineOutcome env.refiner)
          (combinedPromptOf (req.totalDuration.getD 60)
            ((req.boards.filter boardEligible).take 4).length
            (briefsOf (perBoardDuration (req.totalDuration.getD 60)
              ((req.boards.filter boardEligible).take 4).length) env.vlm
              ((req.boards.filter boardEligible).take 4)))] := by
  have h1' : ¬ req.boards.isEmpty = true := by simp [h1]
  have h2' : ¬ (req.boards.filter boardEligible).isEmpty = true := by simp [h2]
  simp only [freshRun, if_neg h1', if_neg h2']
  rw [submitted_analysis_events]
  exact composePhase_submitted _ _ _ _

/-- C1: in a fresh-mode run, when the refinement call fails (transport
error, non-ok response, invalid structure or empty text —
`refineOutcome = none`), the single prompt submitted to the compose
service is exactly the deterministic fallback string: the
"Compose a single N-second track composed of M ordered segments."
header, a space, the fixed coherence suffix, a blank line, and the
per-segment lines "Segment i (name): text Duration: ds." joined by
blank lines; when refinement succeeds with non-empty processed text
(`refineOutcome = some r`), the submitted prompt is exactly that text,
and differs from the fallback whenever the two strings differ. -/
theorem c1_prompt_selection :
    ∀ (req : Request) (env : Env),
    ¬ env.geminiKey = "" → ¬ env.beatovenKey = "" →
    (req.retryMode && strTruthy req.beatovenPrompt) = false →
    (req.adjustMode && strTruthy req.beatovenPrompt
      && strTruthy req.adjustInstructions) = false →
    req.boards.isEmpty = false →
    (req.boards.filter boardEligible).isEmpty = false →
    (refineOutcome env.refiner = none →
      submittedPrompts (POSTembed req env).2
        = ["Compose a single " ++ toString (req.totalDuration.getD 60)
            ++ "-second track composed of "
            ++ toString ((req.boards.filter boardEligible).take 4).length
            ++ " ordered segments. " ++ sharedHints (req.totalDuration.getD 60)
            ++ "\n\n"
            ++ String.intercalate "\n\n"
                (segLinesAux 0 (briefsOf (perBoardDuration (req.totalDuration.getD 60)
                  ((req.boards.filter boardEligible).take 4).length) env.vlm
                  ((req.boards.filter boardEligible).take 4)))])
    ∧ (∀ r, refineOutcome env.refiner = some r →
        submittedPrompts (POSTembed req env).2 = [r]
        ∧ (r ≠ combinedPromptOf (req.totalDuration.getD 60)
              ((req.boards.filter boardEligible).take 4).length
              (briefsOf (perBoardDuration (req.totalDuration.getD 60)
                ((req.boards.filter boardEligible).take 4).length) env.vlm
                ((req.boards.filter boardEligible).take 4)) →
            submittedPrompts (POSTembed req env).2
              ≠ [combinedPromptOf (req.totalDuration.getD 60)
                  ((req.boards.filter boardEligible).take 4).length
                  (briefsOf (perBoardDuration (req.totalDuration.getD 60)
                    ((req.boards.filter boardEligible).take 4).length) env.vlm
                    ((req.boards.filter boardEligible).take 4))])) := by
  intro req env hg hb hr ha h1 h2
  rw [POSTembed_fresh req env hg hb hr ha]
  rw [freshRun_submitted req env h1 h2]
  constructor
  · intro hn
    rw [hn]
    rfl
  · intro r hsome
    have hne := refineOutcome_ne_empty env.refiner r hsome
    rw [hsome, jsOrS_some_of_ne r _ hne]
    refine ⟨rfl, ?_⟩
    intro hdiff heq
    injection heq with h1 _
    exact hdiff h1

/-- Witness for C1: with one eligible board and a refiner transport
error, the submitted prompt is the deterministic fallback. -/
theorem c1_prompt_selection_witness :
    submittedPrompts
        (POSTembed ⟨[⟨"b1", none, none, some 7⟩], none, false, false, none, none⟩
          ⟨"g", "b", fun _ => FetchJson.transport "x", FetchJson.transport "boom",
            FetchJson.ok none, ComposeResp.cok none, fun _ => PollOutcome.transport⟩).2
      = [combinedPromptOf 60 1
          (briefsOf (perBoardDuration 60 1) (fun _ => FetchJson.transport "x")
            [⟨"b1", none, none, some 7⟩])] :=
  (c1_prompt_selection _ _ (by decide) (by decide) (by decide) (by decide)
      (by decide) (by decide)).1 rfl

/-- Failure classification of one analysis call, as the claim
enumerates it: a thrown transport error, a non-success HTTP response,
an invalid response structure, or empty extracted text. -/
def vlmCallFails : FetchJson → Bool
  | .transport _ => true
  | .httpError _ _ => true
  | .ok none => true
  | .ok (some d) =>
      !(d.candidatesTruthy || d.outputTruthy)
        || decide ((extractTextFromGemini d).trim = "")

theorem processBoard_id (dur : Int) (b : Board) (i : Nat) (r : FetchJson) :
    (processBoard dur b i r).id = b.id := by
  cases r with
  | transport m => rfl
  | httpError a c => rfl
  | ok d =>
    cases d with
    | none => rfl
    | some g =>
      by_cases hs : (!(g.candidatesTruthy || g.outputTruthy)) = true
      · simp [processBoard, hs]
      · by_cases he : (extractTextFromGemini g).trim = ""
        · simp [processBoard, hs, he]
        · simp [processBoard, hs, he]

theorem processBoard_error_brief (dur : Int) (b : Board) (i : Nat) (r : FetchJson)
    (h : (processBoard dur b i r).error.isSome = true) :
    (processBoard dur b i r).brief = none := by
  cases r with
  | transport m => rfl
  | httpError a c => rfl
  | ok d =>
    cases d with
    | none => rfl
    | some g =>
      by_cases hs : (!(g.candidatesTruthy || g.outputTruthy)) = true
      · simp [processBoard, hs]
      · by_cases he : (extractTextFromGemini g).trim = ""
        · simp [processBoard, hs, he]
        · simp [processBoard, hs, he] at h

theorem processBoard_fails_iff (dur : Int) (b : Board) (i : Nat) (r : FetchJson) :
    vlmCallFails r = true ↔ (processBoard dur b i r).error.isSome = true := by
  cases r with
  | transport m => simp [vlmCallFails, processBoard]
  | httpError a c => simp [vlmCallFails, processBoard]
  | ok d =>
    cases d with
    | none => simp [vlmCallFails, processBoard]
    | some g =>
      by_cases hs : (!(g.candidatesTruthy || g.outputTruthy)) = true
      · simp [vlmCallFails, processBoard, hs]
      · by_cases he : (extractTextFromGemini g).trim = ""
        · simp [vlmCallFails, processBoard, hs, he]
        · simp [vlmCallFails, processBoard, hs, he]

theorem briefsOf_get (dur : Int) (vlm : Nat → FetchJson) (bs : List Board) (i : Nat)
    (h1 : i < (briefsOf dur vlm bs).length) (h2 : i < bs.length) :
    (briefsOf dur vlm bs).get ⟨i, h1⟩ = processBoard dur (bs.get ⟨i, h2⟩) i (vlm i) := by
  have := briefsAux_get dur vlm bs 0 i h1 h2
  rwa [Nat.zero_add] at this

/-- C4: the brief generator yields exactly one result per board, in
board order (the i-th result is the i-th board's, carrying that board's
id); when a board's analysis call fails — transport error, non-success
response, invalid structure, or empty extracted text — that result
carries the error and no brief text (and conversely only then); and one
board's response never influences the other boards' results, so a
failure cannot abort its siblings. -/
theorem c4_brief_generation :
    ∀ (dur : Int) (vlm : Nat → FetchJson) (limited : List Board),
    ((briefsOf dur vlm limited).length = limited.length)
    ∧ (∀ (i : Nat) (h1 : i < (briefsOf dur vlm limited).length) (h2 : i < limited.length),
        (briefsOf dur vlm limited).get ⟨i, h1⟩
            = processBoard dur (limited.get ⟨i, h2⟩) i (vlm i)
        ∧ ((briefsOf dur vlm limited).get ⟨i, h1⟩).id = (limited.get ⟨i, h2⟩).id)
    ∧ (∀ (i : Nat) (h1 : i < (briefsOf dur vlm limited).length),
        ((briefsOf dur vlm limited).get ⟨i, h1⟩).error.isSome = true →
          ((briefsOf dur vlm limited).get ⟨i, h1⟩).brief = none)
    ∧ (∀ (i : Nat) (h1 : i < (briefsOf dur vlm limited).length),
        vlmCallFails (vlm i) = true
          ↔ ((briefsOf dur vlm limited).get ⟨i, h1⟩).error.isSome = true)
    ∧ (∀ (vlm2 : Nat → FetchJson) (i : Nat), (∀ j, j ≠ i → vlm j = vlm2 j) →
        ∀ (k : Nat) (h1 : k < (briefsOf dur vlm limited).length)
          (h2 : k < (briefsOf dur vlm2 limited).length), k ≠ i →
          (briefsOf dur vlm limited).get ⟨k, h1⟩
            = (briefsOf dur vlm2 limited).get ⟨k, h2⟩) := by
  intro dur vlm limited
  refine ⟨briefsAux_length dur vlm limited 0, ?_, ?_, ?_, ?_⟩
  · intro i h1 h2
    rw [briefsOf_get dur vlm limited i h1 h2]
    exact ⟨rfl, processBoard_id dur _ i (vlm i)⟩
  · intro i h1
    have h2 : i < limited.length := by
      rwa [briefsOf, briefsAux_length] at h1
    rw [briefsOf_get dur vlm limited i h1 h2]
    exact processBoard_error_brief dur _ i (vlm i)
  · intro i h1
    have h2 : i < limited.length := by
      rwa [briefsOf, briefsAux_length] at h1
    rw [briefsOf_get dur vlm limited i h1 h2]
    exact processBoard_fails_iff dur _ i (vlm i)
  · intro vlm2 i hagree k h1 h2 hki
    have hk : k < limited.length := by
      rwa [briefsOf, briefsAux_length] at h1
    rw [briefsOf_get dur vlm limited k h1 hk, briefsOf_get dur vlm2 limited k h2 hk,
      hagree k hki]

/-- Witness for C4: with the first of two boards failing by transport
error, the first result carries no brief while the batch still has both
results. -/
theorem c4_brief_generation_witness :
    ((briefsOf 30
        (fun j => if j = 0 then FetchJson.transport "x"
          else FetchJson.ok (some ⟨true, false, some "Background music: calm piano", none, "st"⟩))
        [⟨"a", none, none, some 6⟩, ⟨"b", none, none, some 9⟩]).get ⟨0, by decide⟩).brief
      = none :=
  (c4_brief_generation 30
      (fun j => if j = 0 then FetchJson.transport "x"
        else FetchJson.ok (some ⟨true, false, some "Background music: calm piano", none, "st"⟩))
      [⟨"a", none, none, some 6⟩, ⟨"b", none, none, some 9⟩]).2.2.1 0 (by decide) (by decide)

/-- Counterexample for C5: in a one-board fresh batch (table duration
60), a failed analysis produces a result record with no
`segment_duration` field at all, so not every returned brief carries
the table-lookup duration. -/
theorem c5_duration_counterexample :
    perBoardDuration 60 1 = 60
    ∧ briefsOf (perBoardDuration 60 1) (fun _ => FetchJson.transport "network down")
        [⟨"b1", none, none, some 5⟩]
      = [⟨"b1", "board-1", none, none, none, some "network down"⟩]
    ∧ (⟨"b1", "board-1", none, none, none, some "network down"⟩
        : BoardResult).segment_duration ≠ some 60 := by
  refine ⟨rfl, by decide, by decide⟩

/-- C5 (amended): per-board duration is the pure table lookup 1→60,
2→30, 3→20, 4→15 of the capped eligible-board count, and
max(15, floor(totalDuration / count)) for any count of five or more;
every brief generated from a successful analysis carries exactly that
duration, while a failed analysis yields a result without the duration
field. -/
theorem c5_duration_amended :
    (∀ td : Int, perBoardDuration td 1 = 60 ∧ perBoardDuration td 2 = 30
      ∧ perBoardDuration td 3 = 20 ∧ perBoardDuration td 4 = 15)
    ∧ (∀ (td : Int) (n : Nat), 5 ≤ n → perBoardDuration td n = max 15 (Int.fdiv td n))
    ∧ (∀ (dur : Int) (vlm : Nat → FetchJson) (limited : List Board) (i : Nat)
        (h1 : i < (briefsOf dur vlm limited).length),
        (((briefsOf dur vlm limited).get ⟨i, h1⟩).error = none →
          ((briefsOf dur vlm limited).get ⟨i, h1⟩).segment_duration = some dur)
        ∧ (((briefsOf dur vlm limited).get ⟨i, h1⟩).error ≠ none →
          ((briefsOf dur vlm limited).get ⟨i, h1⟩).segment_duration = none)) := by
  refine ⟨fun td => ⟨rfl, rfl, rfl, rfl⟩, ?_, ?_⟩
  · intro td n h5
    obtain ⟨m, rfl⟩ : ∃ m, n = m + 5 := ⟨n - 5, by omega⟩
    rfl
  · intro dur vlm limited i h1
    have h2 : i < limited.length := by
      rwa [briefsOf, briefsAux_length] at h1
    rw [briefsOf_get dur vlm limited i h1 h2]
    set b := limited.get ⟨i, h2⟩
    cases hr : vlm i with
    | transport m => simp [processBoard]
    | httpError a c => simp [processBoard]
    | ok d =>
      cases d with
      | none => simp [processBoard]
      | some g =>
        by_cases hs : (!(g.candidatesTruthy || g.outputTruthy)) = true
        · simp [processBoard, hs]
        · by_cases he : (extractTextFromGemini g).trim = ""
          · simp [processBoard, hs, he]
          · simp [processBoard, hs, he]

/-- Witness for C5 (amended): five boards would fall back to the
max-15 formula. -/
theorem c5_duration_amended_witness :
    perBoardDuration 60 5 = max 15 (Int.fdiv 60 5) :=
  c5_duration_amended.2.1 60 5 (by omega)

theorem composePhase_fst_ne_validation (env : Env) (results : Option (List BoardResult))
    (p : String) (mk : String → Option String → MetaObj → Response)
    (hmk : ∀ tid url m, mk tid url m ≠ Response.noBoardsProvided
        ∧ mk tid url m ≠ Response.noValidBoards) :
    (composePhase env results p mk).1 ≠ Response.noBoardsProvided
    ∧ (composePhase env results p mk).1 ≠ Response.noValidBoards := by
  cases hc : env.compose with
  | ctransport m => simp [composePhase, hc]
  | cok tid =>
    cases tid with
    | none => simp [composePhase, hc]
    | some t =>
      rcases hp : pollLoop env.polls with ⟨fin, tr⟩
      cases fin with
      | composedMeta m n => simpa [composePhase, hc, hp] using hmk t (extractTrackUrl m) m
      | failedSt st n => simp [composePhase, hc, hp]
      | timedOut => simp [composePhase, hc, hp]

/-- C6: a retry request with a (non-empty, hence truthy) stored prompt
submits exactly that string, unchanged, as the sole compose submission
of the run; its trace contains no per-board analysis, refinement or
adjust call, and neither board validation outcome can be its result, so
no board filtering is in play. -/
theorem c6_retry_exact_prompt :
    ∀ (req : Request) (env : Env) (p : String),
    ¬ env.geminiKey = "" → ¬ env.beatovenKey = "" →
    req.retryMode = true → req.beatovenPrompt = some p → p ≠ "" →
    submittedPrompts (POSTembed req env).2 = [p]
    ∧ (∀ e ∈ (POSTembed req env).2, isAnalysisCall e = false)
    ∧ (POSTembed req env).1 ≠ Response.noBoardsProvided
    ∧ (POSTembed req env).1 ≠ Response.noValidBoards := by
  intro req env p hg hb hm hp hne
  rw [POSTembed_retry req env p hg hb hm hp hne]
  have hval := composePhase_fst_ne_validation env none p
    (fun tid url m => .retrySuccess p tid url m) (fun tid url m => by simp)
  refine ⟨?_, ?_, ?_, ?_⟩
  · simp only [retryRun]
    exact composePhase_submitted ..
  · simp only [retryRun]
    exact composePhase_no_analysis _ _ _ _
  · simp only [retryRun]
    exact hval.1
  · simp only [retryRun]
    exact hval.2

/-- Witness for C6: a concrete retry request submits its stored prompt
verbatim. -/
theorem c6_retry_exact_prompt_witness :
    submittedPrompts
        (POSTembed ⟨[], none, true, false, some "keep it", none⟩
          ⟨"g", "b", fun _ => FetchJson.ok none, FetchJson.ok none, FetchJson.ok none,
            ComposeResp.cok none, fun _ => PollOutcome.transport⟩).2
      = ["keep it"] :=
  (c6_retry_exact_prompt _ _ "keep it" (by decide) (by decide) rfl rfl (by decide)).1

/-- Counterexample for C7: an adjust request whose instructions are the
whitespace-only string " " is not rejected — the string is truthy, the
adjust branch runs, a network call to the revision service is made, and
the failure surfaced is the 500 adjustment error, not a 400 validation
error. -/
theorem c7_whitespace_counterexample :
    POSTembed ⟨[], none, false, true, some "orig prompt", some " "⟩
        ⟨"g", "b", fun _ => FetchJson.ok none, FetchJson.ok none,
          FetchJson.httpError 500 "quota exceeded", ComposeResp.cok none,
          fun _ => PollOutcome.transport⟩
      = (Response.adjustmentFailed "Adjustment failed: quota exceeded", [Event.adjustCall])
    ∧ httpStatus (Response.adjustmentFailed "Adjustment failed: quota exceeded") ≠ 400
    ∧ ([Event.adjustCall] : List Event) ≠ [] := by
  exact ⟨by decide, by decide, by decide⟩

/-- C7 (amended): a retry or adjust request whose stored prompt is
absent or empty (falsy), or an adjust request whose instructions are
absent or the empty string, is not routed to its branch but falls
through to the fresh path; when the boards list is empty — as the
client sends for retry and adjust — this returns the 400 "No boards
provided" validation response before any external call. A
whitespace-only but non-empty instruction string, by contrast, is
treated as present and the adjust branch performs its network call (the
counterexample). -/
theorem c7_validation_amended :
    ∀ (req : Request) (env : Env),
    ¬ env.geminiKey = "" → ¬ env.beatovenKey = "" →
    (req.retryMode = true ∨ req.adjustMode = true) →
    ¬ (req.retryMode = true ∧ strTruthy req.beatovenPrompt = true) →
    ¬ (req.adjustMode = true ∧ strTruthy req.beatovenPrompt = true
        ∧ strTruthy req.adjustInstructions = true) →
    req.boards = [] →
    POSTembed req env = (Response.noBoardsProvided, [])
    ∧ httpStatus Response.noBoardsProvided = 400 := by
  intro req env hg hb _ hr ha hempty
  have hr' : (req.retryMode && strTruthy req.beatovenPrompt) = false := by
    cases hrm : req.retryMode <;> cases hst : strTruthy req.beatovenPrompt <;> simp_all
  have ha' : (req.adjustMode && strTruthy req.beatovenPrompt
      && strTruthy req.adjustInstructions) = false := by
    cases ham : req.adjustMode <;> cases hst : strTruthy req.beatovenPrompt
      <;> cases hsi : strTruthy req.adjustInstructions <;> simp_all
  rw [POSTembed_fresh req env hg hb hr' ha']
  exact ⟨by simp [freshRun, hempty], rfl⟩

/-- Witness for C7 (amended): a retry request without a stored prompt
and with the client's empty boards list gets the 400 validation
response and makes no external call. -/
theorem c7_validation_amended_witness :
    POSTembed ⟨[], none, true, false, none, none⟩
        ⟨"g", "b", fun _ => FetchJson.ok none, FetchJson.ok none, FetchJson.ok none,
          ComposeResp.cok none, fun _ => PollOutcome.transport⟩
      = (Response.noBoardsProvided, []) :=
  (c7_validation_amended _ _ (by decide) (by decide) (Or.inl rfl)
      (by simp [strTruthy]) (by simp [strTruthy]) rfl).1

/-- Counterexample for C8: a present but empty `track_url` is non-null,
yet the extraction skips it (JS `||` tests truthiness, not null-ness)
and returns the later `trackUrl` value instead of the first non-null
one. -/
theorem c8_track_extraction_counterexample :
    extractTrackUrl ⟨some "", some "https://cdn/track.mp3", none⟩
      = some "https://cdn/track.mp3"
    ∧ (some "" : Option String) ≠ none
    ∧ (some "https://cdn/track.mp3" : Option String) ≠ some "" := by
  exact ⟨by decide, by decide, by decide⟩

/-- C8 (amended): the extracted track reference is the first truthy
(present and non-empty) value among meta.track_url, meta.trackUrl,
meta.track.downloadUrl, meta.track.url, in that order, and null when
none of the four is present and non-empty. -/
theorem c8_track_extraction_amended :
    ∀ (m : MetaObj),
    (strTruthy m.track_url = true → extractTrackUrl m = m.track_url)
    ∧ (strTruthy m.track_url = false → strTruthy m.trackUrl = true →
        extractTrackUrl m = m.trackUrl)
    ∧ (strTruthy m.track_url = false → strTruthy m.trackUrl = false →
        strTruthy (m.track.bind TrackObj.downloadUrl) = true →
        extractTrackUrl m = m.track.bind TrackObj.downloadUrl)
    ∧ (strTruthy m.track_url = false → strTruthy m.trackUrl = false →
        strTruthy (m.track.bind TrackObj.downloadUrl) = false →
        strTruthy (m.track.bind TrackObj.url) = true →
        extractTrackUrl m = m.track.bind TrackObj.url)
    ∧ (strTruthy m.track_url = false → strTruthy m.trackUrl = false →
        strTruthy (m.track.bind TrackObj.downloadUrl) = false →
        strTruthy (m.track.bind TrackObj.url) = false →
        extractTrackUrl m = none) := by
  intro m
  refine ⟨?_, ?_, ?_, ?_, ?_⟩
  · intro h1
    simp [extractTrackUrl, firstTruthy, h1]
  · intro h1 h2
    simp [extractTrackUrl, firstTruthy, h1, h2]
  · intro h1 h2 h3
    simp [extractTrackUrl, firstTruthy, h1, h2, h3]
  · intro h1 h2 h3 h4
    simp [extractTrackUrl, firstTruthy, h1, h2, h3, h4]
  · intro h1 h2 h3 h4
    simp [extractTrackUrl, firstTruthy, h1, h2, h3, h4]

/-- Witness for C8 (amended): with only a nested download URL present,
that value is extracted. -/
theorem c8_track_extraction_amended_witness :
    extractTrackUrl ⟨none, none, some ⟨some "https://cdn/d.mp3", none⟩⟩
      = some "https://cdn/d.mp3" :=
  (c8_track_extraction_amended ⟨none, none, some ⟨some "https://cdn/d.mp3", none⟩⟩).2.2.1
    (by decide) (by decide) (by decide)

set_option maxRecDepth 100000 in
/-- C9: the handler reads no cancellation signal — no request field or
environment input aborts a run — and no return site of the route is a
cancelled outcome: every reachable response classifies as validation,
configuration, submission, composition-failure, timeout, adjustment,
generic or success, never as cancelled. At the concrete failing input
(a retry run whose task stays in a non-terminal status forever) the run
cannot be interrupted: it polls the full 90 attempts and surfaces the
timed-out response, not a cancelled one. -/
theorem c9_no_cancellation :
    (∀ (req : Request) (env : Env),
      outcomeKindOf (POSTembed req env).1 ≠ OutcomeKind.cancelled)
    ∧ (POSTembed ⟨[], none, true, false, some "p", none⟩
          ⟨"g", "b", fun _ => FetchJson.ok none, FetchJson.ok none, FetchJson.ok none,
            ComposeResp.cok (some "t1"),
            fun _ => PollOutcome.ok ⟨some "composing", none, ⟨none, none, none⟩⟩⟩).1
        = Response.composeTimedOut none "t1"
    ∧ polledCount (POSTembed ⟨[], none, true, false, some "p", none⟩
          ⟨"g", "b", fun _ => FetchJson.ok none, FetchJson.ok none, FetchJson.ok none,
            ComposeResp.cok (some "t1"),
            fun _ => PollOutcome.ok ⟨some "composing", none, ⟨none, none, none⟩⟩⟩).2
        = 90 := by
  refine ⟨?_, by decide, by decide⟩
  intro req env
  cases h : (POSTembed req env).1 <;> simp [outcomeKindOf]

/-- C10: when both retryMode and adjustMode are set and a truthy stored
prompt is supplied, the run is exactly the retry run of the same
request with the adjust flag and instructions cleared — retryMode is
tested first, so the adjustment instructions are ignored and no adjust
call is made. -/
theorem c10_retry_precedence :
    ∀ (req : Request) (env : Env) (p : String),
    ¬ env.geminiKey = "" → ¬ env.beatovenKey = "" →
    req.retryMode = true → req.adjustMode = true →
    req.beatovenPrompt = some p → p ≠ "" →
    POSTembed req env
      = POSTembed ⟨req.boards, req.totalDuration, true, false, some p, none⟩ env
    ∧ Event.adjustCall ∉ (POSTembed req env).2 := by
  intro req env p hg hb hm _hadj hp hne
  rw [POSTembed_retry req env p hg hb hm hp hne,
    POSTembed_retry ⟨req.boards, req.totalDuration, true, false, some p, none⟩ env p
      hg hb rfl rfl hne]
  refine ⟨rfl, ?_⟩
  intro hmem
  simp only [retryRun] at hmem
  have := composePhase_no_analysis env none p
    (fun tid url m => .retrySuccess p tid url m) Event.adjustCall hmem
  simp [isAnalysisCall] at this

/-- Witness for C10: a concrete request with both flags set runs
identically to its retry-only counterpart. -/
theorem c10_retry_precedence_witness :
    POSTembed ⟨[], none, true, true, some "p", some "make it faster"⟩
        ⟨"g", "b", fun _ => FetchJson.ok none, FetchJson.ok none, FetchJson.ok none,
          ComposeResp.cok none, fun _ => PollOutcome.transport⟩
      = POSTembed ⟨[], none, true, false, some "p", none⟩
        ⟨"g", "b", fun _ => FetchJson.ok none, FetchJson.ok none, FetchJson.ok none,
          ComposeResp.cok none, fun _ => PollOutcome.transport⟩ :=
  (c10_retry_precedence _ _ "p" (by decide) (by decide) rfl rfl rfl (by decide)).1

end MusicalPainter
